import Mathlib

/-!
Verification of the namespace-deployment reconciler scripts.

The repository's deployment scripts (deploy_mysql.py, deploy_ecom_app.py,
deploy_kafka.py, deploy_kubernetes_dashboard.py) share one reconciler shape:
inspect a namespace, classify its resources against an ownership rule,
resolve conflicts with the operator, apply manifests and wait for pod
readiness.  This file is a shallow embedding of the relevant functions.
Python strings are modelled as `List Char`; the Python string operations
used by the scripts (`split`, `lower`, `strip`, `startswith`, substring
containment) are defined below and the script functions are translated
from the Python source line by line.
-/

namespace Scripts

/-- Python `s.lower()`: lower-case every character. -/
def toLowerStr (s : List Char) : List Char := s.map Char.toLower

/-- Python `needle in hay`: substring containment test. -/
def containsSub (hay needle : List Char) : Bool :=
  match hay with
  | [] => needle.isEmpty
  | c :: t => needle.isPrefixOf (c :: t) || containsSub t needle

/-- Python `s.split(sep)` for a one-character separator: splits on every
occurrence, keeping empty pieces, so the result is always nonempty. -/
def splitOnChar (sep : Char) : List Char → List (List Char)
  | [] => [[]]
  | c :: cs =>
    if c = sep then [] :: splitOnChar sep cs
    else
      match splitOnChar sep cs with
      | [] => [[c]]
      | l :: ls => (c :: l) :: ls

/-- Python `s.split('\n')`, as used on kubectl output. -/
def splitLines (s : List Char) : List (List Char) := splitOnChar '\n' s

/-- Inverse of `splitLines`: interleave the pieces with newlines. -/
def joinLines : List (List Char) → List Char
  | [] => []
  | [l] => l
  | l :: l' :: ls => l ++ '\n' :: joinLines (l' :: ls)

/-- Python `s.strip()`: drop leading and trailing whitespace. -/
def pyStrip (s : List Char) : List Char :=
  ((s.dropWhile Char.isWhitespace).reverse.dropWhile Char.isWhitespace).reverse

/-- Helper for `pySplitWS`: accumulates the current word (reversed). -/
def splitWSAux : List Char → List Char → List (List Char)
  | [], acc => if acc.isEmpty then [] else [acc.reverse]
  | c :: cs, acc =>
    if c.isWhitespace then
      if acc.isEmpty then splitWSAux cs [] else acc.reverse :: splitWSAux cs []
    else splitWSAux cs (c :: acc)

/-- Python `s.split()` with no argument: split on whitespace runs,
dropping empty pieces. -/
def pySplitWS (s : List Char) : List (List Char) := splitWSAux s []

/-! ### Substring facts

The classifier of deploy_mysql.py tests substring containment both on
single lines and on the whole multi-line kubectl output; the lemmas here
relate the two (a needle that contains no newline sits inside a single
line of the output). -/

theorem splitOnChar_ne_nil (sep : Char) : ∀ cs : List Char, splitOnChar sep cs ≠ []
  | [] => by simp [splitOnChar]
  | c :: cs => by
    unfold splitOnChar
    by_cases hc : c = sep
    · simp [hc]
    · simp only [hc, if_false]
      cases h : splitOnChar sep cs <;> simp

theorem joinLines_splitOnChar : ∀ cs : List Char, joinLines (splitOnChar '\n' cs) = cs
  | [] => rfl
  | c :: cs => by
    have ih := joinLines_splitOnChar cs
    by_cases hc : c = '\n'
    · subst hc
      have h1 : splitOnChar '\n' ('\n' :: cs) = [] :: splitOnChar '\n' cs := by
        simp [splitOnChar]
      rw [h1]
      obtain ⟨l, ls, hls⟩ := List.exists_cons_of_ne_nil (splitOnChar_ne_nil '\n' cs)
      rw [hls]
      show '\n' :: joinLines (l :: ls) = '\n' :: cs
      rw [← hls, ih]
    · obtain ⟨l, ls, hls⟩ := List.exists_cons_of_ne_nil (splitOnChar_ne_nil '\n' cs)
      have h1 : splitOnChar '\n' (c :: cs) = (c :: l) :: ls := by
        unfold splitOnChar
        simp only [hc, if_false, hls]
      rw [h1]
      cases ls with
      | nil =>
        show c :: l = c :: cs
        have : joinLines [l] = cs := by rw [← hls, ih]
        simpa using this
      | cons l' rest =>
        show (c :: l) ++ '\n' :: joinLines (l' :: rest) = c :: cs
        have : joinLines (l :: l' :: rest) = cs := by rw [← hls, ih]
        rw [List.cons_append]
        rw [show l ++ '\n' :: joinLines (l' :: rest) = joinLines (l :: l' :: rest) from rfl]
        rw [this]

theorem joinLines_splitLines (cs : List Char) : joinLines (splitLines cs) = cs :=
  joinLines_splitOnChar cs

/-- Boolean and propositional versions of the Python `startswith` test agree. -/
theorem prefOfIff {u v : List Char} : u.isPrefixOf v = true ↔ u <+: v :=
  List.isPrefixOf_iff_prefix

theorem subCons {u : List Char} {a : Char} {rest : List Char} (h : u <:+: a :: rest) :
    u <+: a :: rest ∨ u <:+: rest := by
  obtain ⟨s, t, hst⟩ := h
  cases s with
  | nil => exact Or.inl ⟨t, by simpa using hst⟩
  | cons b s' =>
    simp only [List.cons_append] at hst
    injection hst with h1 h2
    exact Or.inr ⟨s', t, h2⟩

theorem subConsOf {u rest : List Char} {a : Char} (h : u <:+: rest) : u <:+: a :: rest := by
  obtain ⟨s, t, hst⟩ := h
  exact ⟨a :: s, t, by simp [hst]⟩

theorem subOfPref {u v : List Char} (h : u <+: v) : u <:+: v := by
  obtain ⟨t, ht⟩ := h
  exact ⟨[], t, by simpa using ht⟩

theorem subAppendRight {u X : List Char} (Y : List Char) (h : u <:+: X) : u <:+: Y ++ X := by
  obtain ⟨s, t, hst⟩ := h
  exact ⟨Y ++ s, t, by simp [hst]⟩

/-- The Boolean substring test agrees with list-infix containment. -/
theorem containsSub_iff : ∀ (hay needle : List Char), containsSub hay needle = true ↔ needle <:+: hay
  | [], needle => by
    simp only [containsSub, List.isEmpty_iff]
    constructor
    · rintro rfl; exact ⟨[], [], rfl⟩
    · rintro ⟨s, t, hst⟩
      rcases List.append_eq_nil.mp hst with ⟨h1, -⟩
      exact (List.append_eq_nil.mp h1).2
  | c :: t, needle => by
    simp only [containsSub, Bool.or_eq_true]
    rw [prefOfIff, containsSub_iff t needle]
    constructor
    · rintro (h | h)
      · exact subOfPref h
      · exact subConsOf h
    · exact subCons

theorem subOfMem (l : List Char) : ∀ ls : List (List Char), l ∈ ls → l <:+: joinLines ls
  | [], h => absurd h (List.not_mem_nil l)
  | [l₀], h => by
    rcases List.mem_singleton.mp h with rfl
    exact ⟨[], [], by simp [joinLines]⟩
  | l₀ :: l₁ :: rest, h => by
    rcases List.mem_cons.mp h with rfl | hm
    · exact ⟨[], '\n' :: joinLines (l₁ :: rest), rfl⟩
    · have ih := subOfMem l (l₁ :: rest) hm
      exact subAppendRight l₀ (subConsOf ih)

theorem prefOfNoSep {x : Char} : ∀ u A B : List Char, u <+: A ++ x :: B → x ∉ u → u <+: A
  | [], A, _, _, _ => ⟨A, rfl⟩
  | c :: u', [], B, h, hx => by
    exfalso
    obtain ⟨t, ht⟩ := h
    simp only [List.nil_append, List.cons_append] at ht
    injection ht with h1 h2
    exact hx (by rw [← h1]; exact List.mem_cons_self c u')
  | c :: u', a :: A', B, h, hx => by
    obtain ⟨t, ht⟩ := h
    simp only [List.cons_append] at ht
    injection ht with h1 h2
    subst h1
    obtain ⟨t', ht'⟩ :=
      prefOfNoSep u' A' B ⟨t, h2⟩ (fun hm => hx (List.mem_cons_of_mem _ hm))
    exact ⟨t', by simp [ht']⟩

theorem subSplitCross {x : Char} (u : List Char) :
    ∀ A B : List Char, u <:+: A ++ x :: B → u ≠ [] → x ∉ u → u <:+: A ∨ u <:+: B
  | [], B, h, hne, hx => by
    simp only [List.nil_append] at h
    rcases subCons h with h1 | h2
    · exfalso
      obtain ⟨t, ht⟩ := h1
      cases u with
      | nil => exact hne rfl
      | cons c u' =>
        simp only [List.cons_append] at ht
        injection ht with h1' _
        exact hx (by rw [← h1']; exact List.mem_cons_self c u')
    · exact Or.inr h2
  | a :: A', B, h, hne, hx => by
    have h' : u <:+: a :: (A' ++ x :: B) := by simpa using h
    rcases subCons h' with h1 | h2
    · left
      cases u with
      | nil => exact absurd rfl hne
      | cons c u' =>
        obtain ⟨t, ht⟩ := h1
        simp only [List.cons_append] at ht
        injection ht with h1' h2'
        subst h1'
        have hu' : u' <+: A' :=
          prefOfNoSep u' A' B ⟨t, h2'⟩ (fun hm => hx (List.mem_cons_of_mem _ hm))
        obtain ⟨t', ht'⟩ := hu'
        exact subOfPref ⟨t', by simp [ht']⟩
    · rcases subSplitCross u A' B h2 hne hx with hA | hB
      · exact Or.inl (subConsOf hA)
      · exact Or.inr hB

theorem subJoinMem {u : List Char} (hne : u ≠ []) (hx : '\n' ∉ u) :
    ∀ ls : List (List Char), u <:+: joinLines ls → ∃ l, l ∈ ls ∧ u <:+: l
  | [], h => by
    exfalso
    obtain ⟨s, t, hst⟩ := h
    rcases List.append_eq_nil.mp hst with ⟨h1, -⟩
    exact hne (List.append_eq_nil.mp h1).2
  | [l₀], h => ⟨l₀, List.mem_singleton.mpr rfl, h⟩
  | l₀ :: l₁ :: rest, h => by
    rcases subSplitCross u l₀ (joinLines (l₁ :: rest)) h hne hx with h1 | h2
    · exact ⟨l₀, List.mem_cons_self _ _, h1⟩
    · obtain ⟨l, hl, hu⟩ := subJoinMem hne hx (l₁ :: rest) h2
      exact ⟨l, List.mem_cons_of_mem _ hl, hu⟩

theorem toLower_joinLines : ∀ ls : List (List Char),
    toLowerStr (joinLines ls) = joinLines (ls.map toLowerStr)
  | [] => rfl
  | [l] => rfl
  | l :: l' :: rest => by
    have ih := toLower_joinLines (l' :: rest)
    show toLowerStr (l ++ '\n' :: joinLines (l' :: rest)) =
      joinLines (toLowerStr l :: (l' :: rest).map toLowerStr)
    have hmap : (l' :: rest).map toLowerStr = toLowerStr l' :: rest.map toLowerStr := rfl
    rw [hmap]
    show toLowerStr (l ++ '\n' :: joinLines (l' :: rest)) =
      toLowerStr l ++ '\n' :: joinLines (toLowerStr l' :: rest.map toLowerStr)
    rw [← hmap, ← ih]
    simp [toLowerStr]

/-! ### Namespace Inspector: classification (deploy_mysql.py `check_existing_resources`)

`DeploymentManager.check_existing_resources` (deploy_mysql.py lines 133-151)
takes the text returned by `get_namespace_resources` (the stdout of
`kubectl get all -n database`) and returns one of the Python strings
"empty", "mixed", "expected".  A line is owned when its lower-cased text
contains one of the ownership needles (`['mysql', 'phpmyadmin']` in the
script); the function is embedded with the needle list as a parameter so
the classification can be stated for every ownership predicate of this
substring form. -/

/-- Python `any(x in line.lower() for x in needles)`. -/
def ownedLine (needles : List (List Char)) (line : List Char) : Bool :=
  needles.any (fun x => containsSub (toLowerStr line) x)

/-- Python `line.startswith('NAME')`: a kubectl header row. -/
def isHeaderLine (line : List Char) : Bool := List.isPrefixOf "NAME".toList line

/-- Python `line and not line.startswith('NAME')`: a data row of the output. -/
def entryLine (line : List Char) : Bool := !line.isEmpty && !isHeaderLine line

/-- One loop step of `check_existing_resources`: the line makes the
namespace "mixed" when it is a data row not owned by the application. -/
def unexpectedLine (needles : List (List Char)) (line : List Char) : Bool :=
  !ownedLine needles line && entryLine line

/-- deploy_mysql.py lines 133-151, with the needle list as a parameter:
empty output is "empty"; any non-owned data row makes it "mixed"; else
"expected" when a needle occurs in the lower-cased whole output; else
"empty". -/
def classifyResources (needles : List (List Char)) (resources : List Char) : String :=
  if resources.isEmpty then "empty"
  else if (splitLines resources).any (fun l => unexpectedLine needles l) then "mixed"
  else if needles.any (fun x => containsSub (toLowerStr resources) x) then "expected"
  else "empty"

/-- The ownership needles hard-coded in deploy_mysql.py. -/
def mysqlNeedles : List (List Char) := [String.toList "mysql", String.toList "phpmyadmin"]

/-- `DeploymentManager.check_existing_resources` itself. -/
def check_existing_resources (resources : List Char) : String :=
  classifyResources mysqlNeedles resources

/-- The entries of a snapshot: the data rows of the kubectl output
(non-blank lines that are not header rows). -/
def entriesOf (resources : List Char) : List (List Char) :=
  (splitLines resources).filter entryLine

theorem entriesOf_nil : entriesOf [] = [] := rfl

/-- A needle occurring in the lower-cased whole output occurs in the
lower-cased text of one of its lines. -/
theorem needleLine {x resources : List Char} (hne : x ≠ []) (hnl : '\n' ∉ x)
    (h : containsSub (toLowerStr resources) x = true) :
    ∃ l, l ∈ splitLines resources ∧ containsSub (toLowerStr l) x = true := by
  have hsub : x <:+: toLowerStr resources := (containsSub_iff _ _).mp h
  have hj : toLowerStr resources = joinLines ((splitLines resources).map toLowerStr) := by
    conv_lhs => rw [← joinLines_splitLines resources]
    exact toLower_joinLines _
  rw [hj] at hsub
  obtain ⟨l', hl', hx⟩ := subJoinMem hne hnl _ hsub
  obtain ⟨l, hl, rfl⟩ := List.mem_map.mp hl'
  exact ⟨l, hl, (containsSub_iff _ _).mpr hx⟩

/-- Conversely, a needle occurring in one line occurs in the whole output. -/
theorem needleWhole {x l resources : List Char} (hl : l ∈ splitLines resources)
    (h : containsSub (toLowerStr l) x = true) :
    containsSub (toLowerStr resources) x = true := by
  have hsub : x <:+: toLowerStr l := (containsSub_iff _ _).mp h
  have hmem : toLowerStr l ∈ (splitLines resources).map toLowerStr :=
    List.mem_map_of_mem _ hl
  have hline : toLowerStr l <:+: joinLines ((splitLines resources).map toLowerStr) :=
    subOfMem _ _ hmem
  have hj : toLowerStr resources = joinLines ((splitLines resources).map toLowerStr) := by
    conv_lhs => rw [← joinLines_splitLines resources]
    exact toLower_joinLines _
  rw [containsSub_iff, hj]
  exact hsub.trans hline

/-- C1: for every resource snapshot and every substring ownership
predicate whose needles are nonempty and newline-free and do not match a
kubectl header row, `check_existing_resources` realises the exact
trichotomy of the spec: "empty" when the snapshot has zero entries,
"expected" (AllOwned) when it has entries and every entry is owned, and
"mixed" when some entry is not owned. -/
theorem C1_classify_trichotomy (needles : List (List Char)) (resources : List Char)
    (hnd : ∀ x ∈ needles, x ≠ [] ∧ '\n' ∉ x)
    (hhdr : ∀ l ∈ splitLines resources, isHeaderLine l = true → ownedLine needles l = false) :
    (entriesOf resources = [] → classifyResources needles resources = "empty") ∧
    ((∃ e ∈ entriesOf resources, ownedLine needles e = false) →
      classifyResources needles resources = "mixed") ∧
    (entriesOf resources ≠ [] → (∀ e ∈ entriesOf resources, ownedLine needles e = true) →
      classifyResources needles resources = "expected") := by
  refine ⟨?_, ?_, ?_⟩
  · intro hemp
    by_cases hres : resources = []
    · subst hres
      simp [classifyResources]
    · have hlines : ∀ l ∈ splitLines resources, entryLine l = false := by
        intro l hl
        by_contra hcon
        have hent : entryLine l = true := by simpa using hcon
        have : l ∈ entriesOf resources := List.mem_filter.mpr ⟨hl, hent⟩
        rw [hemp] at this
        exact absurd this (List.not_mem_nil l)
      have hany : (splitLines resources).any (fun l => unexpectedLine needles l) = false := by
        rw [List.any_eq_false]
        intro l hl
        simp [unexpectedLine, hlines l hl]
      have hnocc : needles.any (fun x => containsSub (toLowerStr resources) x) = false := by
        rw [List.any_eq_false]
        intro x hx
        obtain ⟨hxne, hxnl⟩ := hnd x hx
        by_contra hcon
        have hocc : containsSub (toLowerStr resources) x = true := by simpa using hcon
        obtain ⟨l, hl, hxl⟩ := needleLine hxne hxnl hocc
        have hentf : entryLine l = false := hlines l hl
        simp only [entryLine, Bool.and_eq_false_iff, Bool.not_eq_false'] at hentf
        rcases hentf with hle | hlh
        · rw [List.isEmpty_iff] at hle
          subst hle
          have : x <:+: ([] : List Char) := (containsSub_iff _ _).mp hxl
          obtain ⟨s, t, hst⟩ := this
          rcases List.append_eq_nil.mp hst with ⟨h1, -⟩
          exact hxne (List.append_eq_nil.mp h1).2
        · have howf : ownedLine needles l = false := hhdr l hl hlh
          rw [ownedLine, List.any_eq_false] at howf
          exact absurd hxl (by simpa using howf x hx)
      have hresne : resources.isEmpty = false := by
        cases h : resources.isEmpty
        · rfl
        · exact absurd (List.isEmpty_iff.mp h) hres
      simp [classifyResources, hresne, hany, hnocc]
  · rintro ⟨e, he, how⟩
    have hres : resources ≠ [] := by
      rintro rfl
      rw [entriesOf_nil] at he
      exact absurd he (List.not_mem_nil e)
    have hresne : resources.isEmpty = false := by
      cases h : resources.isEmpty
      · rfl
      · exact absurd (List.isEmpty_iff.mp h) hres
    have hmem := List.mem_filter.mp he
    have hany : (splitLines resources).any (fun l => unexpectedLine needles l) = true := by
      rw [List.any_eq_true]
      exact ⟨e, hmem.1, by simp [unexpectedLine, how, hmem.2]⟩
    simp [classifyResources, hresne, hany]
  · intro hne hall
    obtain ⟨e₀, he₀⟩ := List.exists_mem_of_ne_nil _ hne
    have hres : resources ≠ [] := by
      rintro rfl
      rw [entriesOf_nil] at he₀
      exact absurd he₀ (List.not_mem_nil e₀)
    have hresne : resources.isEmpty = false := by
      cases h : resources.isEmpty
      · rfl
      · exact absurd (List.isEmpty_iff.mp h) hres
    have hany : (splitLines resources).any (fun l => unexpectedLine needles l) = false := by
      rw [List.any_eq_false]
      intro l hl
      by_cases hent : entryLine l = true
      · have : l ∈ entriesOf resources := List.mem_filter.mpr ⟨hl, hent⟩
        simp [unexpectedLine, hall l this]
      · have : entryLine l = false := by
          cases h : entryLine l
          · rfl
          · exact absurd h hent
        simp [unexpectedLine, this]
    have h₀ := hall e₀ he₀
    rw [ownedLine, List.any_eq_true] at h₀
    obtain ⟨x, hx, hxe⟩ := h₀
    have hmem := List.mem_filter.mp he₀
    have hocc : containsSub (toLowerStr resources) x = true :=
      needleWhole hmem.1 (by simpa using hxe)
    have hnocc : needles.any (fun x => containsSub (toLowerStr resources) x) = true := by
      rw [List.any_eq_true]
      exact ⟨x, hx, by simpa using hocc⟩
    simp [classifyResources, hresne, hany, hnocc]

/-- A concrete all-owned kubectl output for the witness. -/
def mysqlSampleAllOwned : List Char :=
  String.toList "NAME          READY   STATUS    RESTARTS   AGE\npod/mysql-0   1/1     Running   0          5m"

/-- Witness for C1: the AllOwned leg of the trichotomy evaluated on a
concrete snapshot whose single entry is a mysql pod. -/
theorem C1_classify_trichotomy_witness :
    classifyResources mysqlNeedles mysqlSampleAllOwned = "expected" :=
  (C1_classify_trichotomy mysqlNeedles mysqlSampleAllOwned (by decide) (by decide)).2.2
    (by decide) (by decide)

/-! ### deploy_mysql.py workflow (`manage_namespace`, `deploy_resources`, `run`)

The effectful methods of `DeploymentManager` are embedded as functions of
an environment record that fixes the outcome of every external kubectl
call; each function returns the list of kubectl commands it issues
together with its outcome.  The inner poll loop of `wait_for_pods_ready`
is abstracted to a single `podWait` command whose result is a Boolean of
the environment; only the commands issued by `run` / `deploy_resources`
are at issue in the claims below. -/

/-- One kubectl invocation, as issued by the deploy_mysql.py script. -/
inductive Cmd
  | getNamespace
  | createNamespace
  | deleteNamespace
  | listAll
  | applyFile (f : String)
  | podWait (label : String)
  | sleep (seconds : Nat)
deriving DecidableEq

/-- Outcomes of the external calls made during one `run` of
deploy_mysql.py: the result of the namespace existence checks, the text
returned by `kubectl get all`, the operator's typed answer, and the
success of each delete/apply/readiness step. -/
structure MysqlEnv where
  nsExists : Bool
  createOk : Bool
  resources : List Char
  response : List Char
  deleteOk : Bool
  nsExistsAfterDelete : Bool
  createOkAfterDelete : Bool
  mysqlApplyOk : Bool
  mysqlReady : Bool
  phpApplyOk : Bool
  phpReady : Bool
deriving DecidableEq

/-- deploy_mysql.py lines 97-110: `kubectl get namespace database`; on a
nonzero return code `kubectl create namespace database` with check=True,
whose failure is caught and ends in `sys.exit(1)` (result `false`). -/
def manage_namespace (nsExists createOk : Bool) : List Cmd × Bool :=
  if nsExists then ([Cmd.getNamespace], true)
  else if createOk then ([Cmd.getNamespace, Cmd.createNamespace], true)
  else ([Cmd.getNamespace, Cmd.createNamespace], false)

/-- Outcome of `deploy_resources` / `run`: plain termination of the
Python call, or one of its `sys.exit(1)` / uncaught-exception ends. -/
inductive MysqlOutcome
  | nsFailExit
  | deleteFailCrash
  | applyFailCrash
  | mysqlNotReadyExit
  | phpNotReadyExit
  | alreadyDeployed
  | deployOk
deriving DecidableEq

/-- The apply half of deploy_mysql.py `deploy_resources` (lines 183-199):
apply mysql.yaml, wait for mysql pods, apply phpmyadmin.yaml, wait for
phpmyadmin pods; a failed apply raises (check=True, uncaught) and a
failed wait exits. -/
def applySequence (pre : List Cmd) (env : MysqlEnv) : List Cmd × MysqlOutcome :=
  if !env.mysqlApplyOk then (pre ++ [Cmd.applyFile "mysql.yaml"], MysqlOutcome.applyFailCrash)
  else if !env.mysqlReady then
    (pre ++ [Cmd.applyFile "mysql.yaml", Cmd.podWait "mysql"], MysqlOutcome.mysqlNotReadyExit)
  else if !env.phpApplyOk then
    (pre ++ [Cmd.applyFile "mysql.yaml", Cmd.podWait "mysql", Cmd.applyFile "phpmyadmin.yaml"],
      MysqlOutcome.applyFailCrash)
  else if !env.phpReady then
    (pre ++ [Cmd.applyFile "mysql.yaml", Cmd.podWait "mysql", Cmd.applyFile "phpmyadmin.yaml",
      Cmd.podWait "phpmyadmin"], MysqlOutcome.phpNotReadyExit)
  else
    (pre ++ [Cmd.applyFile "mysql.yaml", Cmd.podWait "mysql", Cmd.applyFile "phpmyadmin.yaml",
      Cmd.podWait "phpmyadmin"], MysqlOutcome.deployOk)

/-- deploy_mysql.py lines 174-199: when `delete_namespace` is set the
script deletes the namespace, sleeps a fixed 10 seconds, and calls
`manage_namespace` (one existence check, create if absent) before the
applies; no further check gates the applies on namespace absence. -/
def deploy_resources (delete_namespace : Bool) (env : MysqlEnv) : List Cmd × MysqlOutcome :=
  if delete_namespace then
    if !env.deleteOk then ([Cmd.deleteNamespace], MysqlOutcome.deleteFailCrash)
    else
      let m := manage_namespace env.nsExistsAfterDelete env.createOkAfterDelete
      if !m.2 then ([Cmd.deleteNamespace, Cmd.sleep 10] ++ m.1, MysqlOutcome.nsFailExit)
      else applySequence ([Cmd.deleteNamespace, Cmd.sleep 10] ++ m.1) env
  else applySequence [] env

/-- deploy_mysql.py line 221: the operator's answer at the Mixed conflict
prompt is lower-cased (but not stripped) and compared to 'yes'; `true`
selects the delete-and-redeploy path. -/
def mysqlRecreateChosen (response : List Char) : Bool :=
  toLowerStr response == String.toList "yes"

/-- deploy_mysql.py lines 201-231 (`DeploymentManager.run`) after the
precondition steps (user, files, minikube): manage the namespace,
classify the existing resources, and branch on "expected" / "mixed" /
empty exactly as the source does.  `Cmd.listAll` stands for each
`kubectl get all` performed by `get_namespace_resources` (one inside the
classification and one per `display_resources` call). -/
def run (env : MysqlEnv) : List Cmd × MysqlOutcome :=
  let m := manage_namespace env.nsExists env.createOk
  if !m.2 then (m.1, MysqlOutcome.nsFailExit)
  else
    let status := check_existing_resources env.resources
    if status = "expected" then
      (m.1 ++ [Cmd.listAll, Cmd.listAll], MysqlOutcome.alreadyDeployed)
    else if status = "mixed" then
      let d := deploy_resources (mysqlRecreateChosen env.response) env
      if d.2 = MysqlOutcome.deployOk then
        (m.1 ++ [Cmd.listAll, Cmd.listAll] ++ d.1 ++ [Cmd.listAll], MysqlOutcome.deployOk)
      else (m.1 ++ [Cmd.listAll, Cmd.listAll] ++ d.1, d.2)
    else
      let d := deploy_resources false env
      if d.2 = MysqlOutcome.deployOk then
        (m.1 ++ [Cmd.listAll] ++ d.1 ++ [Cmd.listAll], MysqlOutcome.deployOk)
      else (m.1 ++ [Cmd.listAll] ++ d.1, d.2)

/-- Whether a command applies a manifest. -/
def isApplyCmd : Cmd → Bool
  | Cmd.applyFile _ => true
  | _ => false

/-- Number of `kubectl apply` invocations in a command trace. -/
def countApplies (cmds : List Cmd) : Nat := cmds.countP isApplyCmd

/-- C2: deploy is strictly idempotent.  For every environment whose
namespace exists and whose snapshot classifies as "expected" (AllOwned),
`run` terminates reporting the deployment as already existing and its
trace contains zero apply invocations and zero namespace deletions. -/
theorem C2_allOwned_run_skips_apply (env : MysqlEnv)
    (hns : env.nsExists = true)
    (hexp : check_existing_resources env.resources = "expected") :
    (run env).2 = MysqlOutcome.alreadyDeployed ∧
    countApplies (run env).1 = 0 ∧
    Cmd.deleteNamespace ∉ (run env).1 := by
  have hrun : run env = ([Cmd.getNamespace, Cmd.listAll, Cmd.listAll],
      MysqlOutcome.alreadyDeployed) := by
    rw [run]
    simp [manage_namespace, hns, hexp]
  rw [hrun]
  refine ⟨rfl, rfl, ?_⟩
  decide

/-- Environment for the C2 witness: the namespace exists and holds only
mysql/phpmyadmin resources. -/
def envAllOwned : MysqlEnv :=
  { nsExists := true, createOk := true,
    resources := String.toList "NAME          READY   STATUS    RESTARTS   AGE\npod/mysql-0   1/1     Running   0          5m",
    response := [], deleteOk := true, nsExistsAfterDelete := false,
    createOkAfterDelete := true, mysqlApplyOk := true, mysqlReady := true,
    phpApplyOk := true, phpReady := true }

/-- Witness for C2 at a concrete AllOwned environment. -/
theorem C2_allOwned_run_skips_apply_witness :
    (run envAllOwned).2 = MysqlOutcome.alreadyDeployed ∧
    countApplies (run envAllOwned).1 = 0 ∧
    Cmd.deleteNamespace ∉ (run envAllOwned).1 :=
  C2_allOwned_run_skips_apply envAllOwned rfl (by decide)

/-! ### Recreate path: fixed delay (deploy_mysql.py) versus polling (deploy_kafka.py)

deploy_mysql.py lines 176-181 delete the namespace, `time.sleep(10)`, and
call `manage_namespace`, whose single existence check does not gate the
applies: if the namespace is still present after the fixed delay the
method prints "already exists" and proceeds straight to
`kubectl apply`.  deploy_kafka.py lines 246-255, by contrast, poll
`kubectl get namespace streaming` up to 30 times at a fixed 2-second
interval and stop polling when a check observes absence. -/

/-- Environment for the C3 counterexample: the namespace deletion has NOT
completed when `manage_namespace` checks after the fixed 10-second sleep
(`nsExistsAfterDelete := true`); every later step succeeds. -/
def envSlowDelete : MysqlEnv :=
  { nsExists := true, createOk := true, resources := [], response := [],
    deleteOk := true, nsExistsAfterDelete := true, createOkAfterDelete := true,
    mysqlApplyOk := true, mysqlReady := true, phpApplyOk := true, phpReady := true }

/-- Counterexample to C3: in deploy_mysql.py the recreate path waits a
fixed `sleep 10` and performs exactly one namespace existence check; with
the namespace still present at that check (deletion not complete, so the
namespace does not hold zero resources) the trace still proceeds to
`kubectl apply -f mysql.yaml`.  Deletion completion is assumed after a
fixed delay, not awaited by polling for absence. -/
theorem C3_counterexample :
    envSlowDelete.nsExistsAfterDelete = true ∧
    deploy_resources true envSlowDelete =
      ([Cmd.deleteNamespace, Cmd.sleep 10, Cmd.getNamespace,
        Cmd.applyFile "mysql.yaml", Cmd.podWait "mysql",
        Cmd.applyFile "phpmyadmin.yaml", Cmd.podWait "phpmyadmin"],
        MysqlOutcome.deployOk) := by
  constructor
  · rfl
  · decide

/-- deploy_kafka.py lines 248-254: `for i in range(30): time.sleep(2);`
check `kubectl get namespace streaming`; break when the check reports the
namespace gone.  `present i` is the result of the i-th existence check;
the function returns the number of checks performed and whether absence
was observed. -/
def kafkaAwaitFrom (present : Nat → Bool) : Nat → Nat → Nat × Bool
  | _, 0 => (0, false)
  | i, fuel + 1 =>
    if present i then
      let r := kafkaAwaitFrom present (i + 1) fuel
      (r.1 + 1, r.2)
    else (1, true)

/-- The kafka deletion wait: 30 bounded attempts starting at check 0. -/
def kafkaAwaitDeletion (present : Nat → Bool) : Nat × Bool :=
  kafkaAwaitFrom present 0 30

theorem kafkaAwaitFrom_le (present : Nat → Bool) :
    ∀ fuel i, (kafkaAwaitFrom present i fuel).1 ≤ fuel
  | 0, _ => Nat.le_refl 0
  | fuel + 1, i => by
    rw [kafkaAwaitFrom]
    by_cases h : present i
    · simp only [h, if_true]
      exact Nat.succ_le_succ (kafkaAwaitFrom_le present fuel (i + 1))
    · simp [h]

theorem kafkaAwaitFrom_observes (present : Nat → Bool) :
    ∀ fuel i j, i ≤ j → j < i + fuel → present j = false →
      (kafkaAwaitFrom present i fuel).2 = true
  | 0, i, j, hij, hlt, _ => absurd hlt (by omega)
  | fuel + 1, i, j, hij, hlt, habs => by
    rw [kafkaAwaitFrom]
    by_cases h : present i
    · have hne : i ≠ j := by
        rintro rfl
        rw [h] at habs
        exact absurd habs (by simp)
      simp only [h, if_true]
      exact kafkaAwaitFrom_observes present fuel (i + 1) j (by omega) (by omega) habs
    · simp [h]

/-- Amended C3: only deploy_kafka.py awaits namespace deletion by polling
for absence.  Its wait loop performs at most 30 existence checks (each
after a fixed 2-second sleep, a constant in the source), and whenever the
namespace is observed absent at some check inside the window, the loop
ends having observed absence before the script recreates the namespace.
deploy_mysql.py (and deploy_ecom_app.py, sleep 5) instead wait one fixed
delay and do not poll, as the counterexample shows. -/
theorem C3_amended_kafka_polls_absence (present : Nat → Bool) :
    (kafkaAwaitDeletion present).1 ≤ 30 ∧
    (∀ j, j < 30 → present j = false → (kafkaAwaitDeletion present).2 = true) := by
  constructor
  · exact kafkaAwaitFrom_le present 30 0
  · intro j hj habs
    exact kafkaAwaitFrom_observes present 30 0 j (Nat.zero_le j) (by omega) habs

/-! ### Readiness Waiter (deploy_kafka.py `wait_for_pods`, lines 110-143)

Each poll runs `kubectl get pods -n NS --no-headers` (through
`run_command`, which strips the stdout) and examines every line: lines
with fewer than two whitespace-separated tokens are skipped, the second
token is parsed as `x/y` with Python `int`, a parse failure or `x != y`
marks the poll not-all-ready.  The poll loop runs while `elapsed <
timeout`, sleeping `interval` seconds after each non-ready poll.  The
loop is embedded with the sequence of poll outputs as a function
`snap : Nat → List Char` and fuel `timeout + 1`, which bounds the
iteration count whenever `interval ≥ 1` (the scripts use 10 and the
claims 1). -/

/-- Python `int(s)` on a token of digits with an optional sign, the only
shapes a kubectl ready column can take (the rarer forms Python's `int`
also accepts, such as underscores or surrounding whitespace, cannot occur
in a whitespace-split token of kubectl output). -/
def digitsToNat (s : List Char) : Option Nat :=
  if s.isEmpty || s.any (fun c => !c.isDigit) then none
  else some (s.foldl (fun acc c => acc * 10 + (c.toNat - 48)) 0)

/-- Python `int(s)` returning an integer, `none` for a `ValueError`. -/
def pyInt : List Char → Option Int
  | [] => none
  | '-' :: rest => (digitsToNat rest).map (fun n => -(n : Int))
  | '+' :: rest => (digitsToNat rest).map (fun n => (n : Int))
  | s => (digitsToNat s).map (fun n => (n : Int))

/-- Python `ready_num, ready_den = map(int, ready.split('/'))`: exactly
two `/`-separated pieces, both parsing as integers; otherwise the
`ValueError` branch. -/
def parseRatio (tok : List Char) : Option (Int × Int) :=
  match splitOnChar '/' tok with
  | [a, b] =>
    match pyInt a, pyInt b with
    | some x, some y => some (x, y)
    | _, _ => none
  | _ => none

/-- The ready ratio of a pod line: its second whitespace token parsed as
`x/y`. -/
def lineRatio (line : List Char) : Option (Int × Int) :=
  match (pySplitWS line)[1]? with
  | none => none
  | some tok => parseRatio tok

/-- One line of the kafka readiness check: `true` when the line makes the
poll not-all-ready (parse failure or `ready_num != ready_den`); lines
with fewer than two tokens are skipped (`false`). -/
def kafkaLineBad (line : List Char) : Bool :=
  match (pySplitWS line)[1]? with
  | none => false
  | some ready =>
    match parseRatio ready with
    | none => true
    | some (x, y) => decide (x ≠ y)

/-- One poll of deploy_kafka.py `wait_for_pods`: the poll transitions to
Ready when the output is nonempty (`if output:`) and no line is bad. -/
def kafkaAllReady (output : List Char) : Bool :=
  !output.isEmpty && (splitLines output).all (fun l => !kafkaLineBad l)

/-- The two terminal outcomes of the waiter. -/
inductive ReadinessOutcome
  | ready
  | timedOut
deriving DecidableEq

/-- The poll loop of `wait_for_pods`: while `elapsed < timeout`, poll
number `k` is taken; a ready poll returns immediately, otherwise the loop
sleeps `interval` and continues with `elapsed + interval`.  Returns the
outcome and the number of polls performed. -/
def wait_for_pods_aux (snap : Nat → List Char) (interval timeout : Nat) :
    Nat → Nat → Nat → ReadinessOutcome × Nat
  | 0, _, k => (ReadinessOutcome.timedOut, k)
  | fuel + 1, elapsed, k =>
    if elapsed < timeout then
      if kafkaAllReady (snap k) then (ReadinessOutcome.ready, k + 1)
      else wait_for_pods_aux snap interval timeout fuel (elapsed + interval) (k + 1)
    else (ReadinessOutcome.timedOut, k)

/-- deploy_kafka.py `wait_for_pods` as a function of its poll sequence. -/
def wait_for_pods (snap : Nat → List Char) (interval timeout : Nat) :
    ReadinessOutcome × Nat :=
  wait_for_pods_aux snap interval timeout (timeout + 1) 0 0

theorem waitAux_polls_ge (snap : Nat → List Char) (i t : Nat) :
    ∀ fuel e k, k ≤ (wait_for_pods_aux snap i t fuel e k).2
  | 0, _, k => Nat.le_refl k
  | fuel + 1, e, k => by
    rw [wait_for_pods_aux]
    by_cases he : e < t
    · cases hr : kafkaAllReady (snap k) with
      | true => simp [he, hr]
      | false =>
        simp only [he, if_true, hr, Bool.false_eq_true, if_false]
        exact Nat.le_trans (Nat.le_succ k) (waitAux_polls_ge snap i t fuel (e + i) (k + 1))
    · simp [he]

theorem waitAux_timedOut (snap : Nat → List Char) (t : Nat) :
    ∀ fuel e k, (∀ n, n < k + (t - e) → kafkaAllReady (snap n) = false) →
      t - e ≤ fuel →
      wait_for_pods_aux snap 1 t fuel e k = (ReadinessOutcome.timedOut, k + (t - e))
  | 0, e, k, _, hle => by
    have h0 : t - e = 0 := Nat.le_zero.mp hle
    simp [wait_for_pods_aux, h0]
  | fuel + 1, e, k, hnr, hle => by
    rw [wait_for_pods_aux]
    by_cases he : e < t
    · have hk : kafkaAllReady (snap k) = false := hnr k (by omega)
      simp only [he, if_true, hk, Bool.false_eq_true, if_false]
      have ih := waitAux_timedOut snap t fuel (e + 1) (k + 1)
        (fun n hn => hnr n (by omega)) (by omega)
      rw [ih]
      have harith : k + 1 + (t - (e + 1)) = k + (t - e) := by omega
      rw [harith]
    · have h0 : t - e = 0 := by omega
      simp [he, h0]

theorem waitAux_absorbing (snap snap' : Nat → List Char) (i t : Nat) :
    ∀ fuel e k,
      (∀ m, k ≤ m → m < (wait_for_pods_aux snap i t fuel e k).2 → snap' m = snap m) →
      wait_for_pods_aux snap' i t fuel e k = wait_for_pods_aux snap i t fuel e k
  | 0, _, _, _ => rfl
  | fuel + 1, e, k, hag => by
    by_cases he : e < t
    · have hk2 : k < (wait_for_pods_aux snap i t (fuel + 1) e k).2 := by
        rw [wait_for_pods_aux]
        cases hr : kafkaAllReady (snap k) with
        | true => simp [he, hr]
        | false =>
          simp only [he, if_true, hr, Bool.false_eq_true, if_false]
          exact Nat.lt_of_lt_of_le (Nat.lt_succ_self k)
            (waitAux_polls_ge snap i t fuel (e + i) (k + 1))
      have hk : snap' k = snap k := hag k (Nat.le_refl k) hk2
      rw [wait_for_pods_aux, wait_for_pods_aux, hk]
      cases hr : kafkaAllReady (snap k) with
      | true => simp [he, hr]
      | false =>
        simp only [he, if_true, hr, Bool.false_eq_true, if_false]
        apply waitAux_absorbing snap snap' i t fuel (e + i) (k + 1)
        intro m hm1 hm2
        apply hag m (by omega)
        rw [wait_for_pods_aux]
        simp only [he, if_true, hr, Bool.false_eq_true, if_false]
        exact hm2
    · rw [wait_for_pods_aux, wait_for_pods_aux]
      simp [he]

/-- The poll sequence of the C4 scenario: ready ratio 0/1 at the first
poll, 1/1 from the second poll on. -/
def seqZeroOneThenReady : Nat → List Char
  | 0 => String.toList "kafka-0   0/1   ContainerCreating   0   5s"
  | _ + 1 => String.toList "kafka-0   1/1   Running   0   15s"

/-- A poll output all of whose lines carry ready ratio 0/1. -/
def allZeroOne (out : List Char) : Prop :=
  out ≠ [] ∧ ∀ l ∈ splitLines out, lineRatio l = some (0, 1)

theorem lineRatio_none {l : List Char} (h : (pySplitWS l)[1]? = none) :
    lineRatio l = none := by
  unfold lineRatio
  rw [h]

theorem lineRatio_some {l tok : List Char} (h : (pySplitWS l)[1]? = some tok) :
    lineRatio l = parseRatio tok := by
  unfold lineRatio
  rw [h]

theorem kafkaLineBad_noTok {l : List Char} (h : (pySplitWS l)[1]? = none) :
    kafkaLineBad l = false := by
  unfold kafkaLineBad
  rw [h]

theorem kafkaLineBad_noParse {l tok : List Char} (h : (pySplitWS l)[1]? = some tok)
    (hp : parseRatio tok = none) : kafkaLineBad l = true := by
  unfold kafkaLineBad
  rw [h]
  show (match parseRatio tok with
    | none => true
    | some (x, y) => decide (x ≠ y)) = true
  rw [hp]

theorem kafkaLineBad_parsed {l tok : List Char} {x y : Int}
    (h : (pySplitWS l)[1]? = some tok) (hp : parseRatio tok = some (x, y)) :
    kafkaLineBad l = decide (x ≠ y) := by
  unfold kafkaLineBad
  rw [h]
  show (match parseRatio tok with
    | none => true
    | some (x, y) => decide (x ≠ y)) = decide (x ≠ y)
  rw [hp]

theorem allZeroOne_not_ready {out : List Char} (h : allZeroOne out) :
    kafkaAllReady out = false := by
  obtain ⟨hne, hl⟩ := h
  obtain ⟨l₀, hl₀⟩ := List.exists_mem_of_ne_nil _ (splitOnChar_ne_nil '\n' out)
  have hr := hl l₀ hl₀
  have hbad : kafkaLineBad l₀ = true := by
    cases htok : (pySplitWS l₀)[1]? with
    | none =>
      rw [lineRatio_none htok] at hr
      exact absurd hr (by simp)
    | some tok =>
      rw [lineRatio_some htok] at hr
      rw [kafkaLineBad_parsed htok hr]
      decide
  have hall : (splitLines out).all (fun l => !kafkaLineBad l) = false := by
    cases hc : (splitLines out).all (fun l => !kafkaLineBad l)
    · rfl
    · have := List.all_eq_true.mp hc l₀ hl₀
      rw [hbad] at this
      exact absurd this (by simp)
  simp [kafkaAllReady, hall]

/-- C4: the Readiness Waiter is the stated function of its snapshot
sequence.  (a) With interval 1 and timeout 10 the sequence 0/1 then 1/1
yields Ready after exactly 2 polls.  (b) Every sequence that is all-0/1
at each poll inside the window yields TimedOut once elapsed reaches the
timeout, after exactly 10 polls.  (c) A terminal outcome is absorbing:
the result depends only on the polls performed before the outcome was
emitted, so no later snapshot is ever consulted. -/
theorem C4_waiter_state_machine :
    (wait_for_pods seqZeroOneThenReady 1 10 = (ReadinessOutcome.ready, 2)) ∧
    (∀ snap : Nat → List Char, (∀ n, n < 10 → allZeroOne (snap n)) →
      wait_for_pods snap 1 10 = (ReadinessOutcome.timedOut, 10)) ∧
    (∀ snap snap' : Nat → List Char, ∀ interval timeout : Nat,
      (∀ m, m < (wait_for_pods snap interval timeout).2 → snap' m = snap m) →
      wait_for_pods snap' interval timeout = wait_for_pods snap interval timeout) := by
  refine ⟨by decide, ?_, ?_⟩
  · intro snap h
    have := waitAux_timedOut snap 10 11 0 0
      (fun n hn => allZeroOne_not_ready (h n (by simpa using hn))) (by omega)
    simpa [wait_for_pods] using this
  · intro snap snap' i t hag
    exact waitAux_absorbing snap snap' i t (t + 1) 0 0 (fun m _ hm2 => hag m hm2)

theorem waitAux_empty (snap : Nat → List Char) (i t : Nat) (hsnap : ∀ n, snap n = []) :
    ∀ fuel e k, (wait_for_pods_aux snap i t fuel e k).1 = ReadinessOutcome.timedOut
  | 0, _, _ => rfl
  | fuel + 1, e, k => by
    rw [wait_for_pods_aux]
    by_cases he : e < t
    · have hk : kafkaAllReady (snap k) = false := by
        rw [hsnap k]
        rfl
      simp only [he, if_true, hk, Bool.false_eq_true, if_false]
      exact waitAux_empty snap i t hsnap fuel (e + i) (k + 1)
    · simp [he]

/-- C10: readiness is not vacuously true over an empty pod set.  When the
pod listing returns zero lines at every poll, the waiter never yields
Ready for any interval and timeout, and with interval 1 it yields
TimedOut after exactly `timeout` polls, once the timeout has elapsed. -/
theorem C10_empty_listing_never_ready :
    (∀ (snap : Nat → List Char) (interval timeout : Nat), (∀ n, snap n = []) →
      (wait_for_pods snap interval timeout).1 = ReadinessOutcome.timedOut) ∧
    (∀ (snap : Nat → List Char) (timeout : Nat), (∀ n, snap n = []) →
      wait_for_pods snap 1 timeout = (ReadinessOutcome.timedOut, timeout)) := by
  constructor
  · intro snap i t hsnap
    exact waitAux_empty snap i t hsnap (t + 1) 0 0
  · intro snap t hsnap
    have := waitAux_timedOut snap t (t + 1) 0 0
      (fun n _ => by rw [hsnap n]; rfl) (by omega)
    simpa [wait_for_pods] using this

/-- Counterexample to C5: the readiness predicate of deploy_kafka.py has
no `y ≥ 1` requirement.  A pod line with ready ratio 0/0 satisfies
`x == y` with `y = 0`, and a poll whose only pod shows 0/0 transitions to
Ready, although the claim requires the predicate to fail when `y < 1`. -/
theorem C5_counterexample :
    lineRatio (String.toList "kafka-0   0/0   Running") = some (0, 0) ∧
    kafkaAllReady (String.toList "kafka-0   0/0   Running") = true := by
  constructor
  · decide
  · decide

/-- One line of the deploy_kubernetes_dashboard.py readiness check
(lines 52-60): the line blocks readiness when its second token is not the
literal string "1/1". -/
def dashLineBad (line : List Char) : Bool :=
  match (pySplitWS line)[1]? with
  | none => false
  | some ready => !(ready == String.toList "1/1")

theorem dashLineBad_some {line tok : List Char} (h : (pySplitWS line)[1]? = some tok) :
    dashLineBad line = !(tok == String.toList "1/1") := by
  unfold dashLineBad
  rw [h]

/-- Per-line characterisation of the kafka readiness check. -/
theorem kafkaLineBad_false_iff (l : List Char) :
    kafkaLineBad l = false ↔ ∀ tok, (pySplitWS l)[1]? = some tok →
      ∃ x y : Int, parseRatio tok = some (x, y) ∧ x = y := by
  cases htok : (pySplitWS l)[1]? with
  | none =>
    rw [kafkaLineBad_noTok htok]
    constructor
    · intro _ tok htok'
      exact absurd htok' (by simp)
    · intro _
      rfl
  | some tok =>
    cases hr : parseRatio tok with
    | none =>
      rw [kafkaLineBad_noParse htok hr]
      constructor
      · intro hfalse
        exact absurd hfalse (by simp)
      · intro hall
        obtain ⟨x, y, hxy, -⟩ := hall tok rfl
        rw [hr] at hxy
        exact absurd hxy (by simp)
    | some xy =>
      obtain ⟨x, y⟩ := xy
      rw [kafkaLineBad_parsed htok hr]
      constructor
      · intro hdec tok' htok'
        injection htok' with htt
        subst htt
        refine ⟨x, y, hr, ?_⟩
        simpa using hdec
      · intro hall
        obtain ⟨x', y', hxy, heq⟩ := hall tok rfl
        rw [hr] at hxy
        have hp := Option.some.inj hxy
        have hx : x = x' := congrArg Prod.fst hp
        have hy : y = y' := congrArg Prod.snd hp
        subst hx
        subst hy
        simp [heq]

/-- Amended C5: in deploy_kafka.py a poll transitions to Ready exactly
when the listing output is nonempty and every line with a second token
has a ratio `x/y` that parses with `x = y` — there is no `y ≥ 1`
requirement, so 0/0 counts as ready.  In
deploy_kubernetes_dashboard.py the per-line test is instead literal
string equality of the ready token with "1/1" (so 2/2 does not count). -/
theorem C5_amended_equality_only :
    (∀ out : List Char, kafkaAllReady out = true ↔
      ((!out.isEmpty) = true ∧ ∀ l ∈ splitLines out, ∀ tok, (pySplitWS l)[1]? = some tok →
        ∃ x y : Int, parseRatio tok = some (x, y) ∧ x = y)) ∧
    (∀ line : List Char, ∀ tok, (pySplitWS line)[1]? = some tok →
      (dashLineBad line = false ↔ tok = String.toList "1/1")) := by
  constructor
  · intro out
    unfold kafkaAllReady
    rw [Bool.and_eq_true, List.all_eq_true]
    constructor
    · rintro ⟨h1, h2⟩
      refine ⟨h1, fun l hl => ?_⟩
      have h3 : kafkaLineBad l = false := by simpa using h2 l hl
      exact (kafkaLineBad_false_iff l).mp h3
    · rintro ⟨h1, h2⟩
      refine ⟨h1, fun l hl => ?_⟩
      have h3 := (kafkaLineBad_false_iff l).mpr (h2 l hl)
      simp [h3]
  · intro line tok htok
    rw [dashLineBad_some htok]
    simp

/-! ### deploy_ecom_app.py: classification, conflict decision, ensure_namespace

`get_resources` (lines 138-148) returns the stripped stdout of
`kubectl get all -n application`, or the empty string when the command
fails.  `resources_belong_to_app` (lines 150-166) checks that the first
token of every data row contains "ecommerce-application".
`manage_existing_resources` (lines 192-226) branches on that
classification; at the Mixed prompt the operator's answer is stripped and
lower-cased, and any answer outside {continue, delete} ends in
`sys.exit(1)`. -/

/-- deploy_ecom_app.py lines 150-166. -/
def resources_belong_to_app (resources_output : List Char) : Bool :=
  (splitLines resources_output).all (fun line =>
    if isHeaderLine line then true
    else if (pyStrip line).isEmpty then true
    else
      match (pySplitWS line).head? with
      | none => false
      | some name => containsSub name (String.toList "ecommerce-application"))

/-- deploy_ecom_app.py lines 126-136: `kubectl get namespace` with
check=True; on failure `kubectl create namespace` with check=True, whose
failure propagates as an uncaught exception (result `false`). -/
def ensure_namespace (nsExists createOk : Bool) : List Cmd × Bool :=
  if nsExists then ([Cmd.getNamespace], true)
  else ([Cmd.getNamespace, Cmd.createNamespace], createOk)

/-- Ends of `manage_existing_resources`: skip because everything is
already owned (Python `return None`), proceed with deployment
(`return True`), `sys.exit(1)` on an unrecognised answer, or an uncaught
exception from delete/create. -/
inductive EcomOutcome
  | alreadySkip
  | proceed
  | invalidExit
  | deleteCrash
  | nsCrash
deriving DecidableEq

/-- deploy_ecom_app.py lines 192-226.  `out` is the string returned by
`get_resources`; `choice` the operator's raw answer (the source strips
and lower-cases it at the prompt); the Booleans fix the outcomes of the
delete and of the existence check / create inside `ensure_namespace` on
the delete path.  The trace starts with the `kubectl get all` of
`get_resources`. -/
def manage_existing_resources (out choice : List Char)
    (deleteOk nsExistsAfter createOkAfter : Bool) : List Cmd × EcomOutcome :=
  if !out.isEmpty then
    if resources_belong_to_app out then ([Cmd.listAll], EcomOutcome.alreadySkip)
    else if toLowerStr (pyStrip choice) == String.toList "delete" then
      if !deleteOk then ([Cmd.listAll, Cmd.deleteNamespace], EcomOutcome.deleteCrash)
      else
        let e := ensure_namespace nsExistsAfter createOkAfter
        ([Cmd.listAll, Cmd.deleteNamespace, Cmd.sleep 5] ++ e.1,
          if e.2 then EcomOutcome.proceed else EcomOutcome.nsCrash)
    else if toLowerStr (pyStrip choice) == String.toList "continue" then
      ([Cmd.listAll], EcomOutcome.proceed)
    else ([Cmd.listAll], EcomOutcome.invalidExit)
  else ([Cmd.listAll], EcomOutcome.proceed)

/-- C6: when the classification is Mixed (resources exist and not all
belong to the application) and the operator's answer is outside the
recognised vocabulary — in particular "abort" — the reconciler terminates
via `sys.exit(1)` having issued only the read-only listing: zero apply
calls and no mutation of the namespace. -/
theorem C6_abort_no_mutation (out choice : List Char) (dOk a b : Bool)
    (hne : out.isEmpty = false)
    (hmix : resources_belong_to_app out = false)
    (hnotdel : toLowerStr (pyStrip choice) ≠ String.toList "delete")
    (hnotcont : toLowerStr (pyStrip choice) ≠ String.toList "continue") :
    manage_existing_resources out choice dOk a b = ([Cmd.listAll], EcomOutcome.invalidExit) := by
  have h1 : (toLowerStr (pyStrip choice) == String.toList "delete") = false := by
    simpa using hnotdel
  have h2 : (toLowerStr (pyStrip choice) == String.toList "continue") = false := by
    simpa using hnotcont
  unfold manage_existing_resources
  rw [hne, hmix, h1, h2]
  rfl

/-- Witness for C6 at the spec's literal scenario: a foreign pod line and
the answer "abort". -/
theorem C6_abort_no_mutation_witness :
    manage_existing_resources (String.toList "pod/foo-bar   1/1   Running")
      (String.toList "abort") true true true = ([Cmd.listAll], EcomOutcome.invalidExit) :=
  C6_abort_no_mutation (String.toList "pod/foo-bar   1/1   Running")
    (String.toList "abort") true true true (by decide) (by decide) (by decide) (by decide)

/-! ### Namespace snapshot and inspector failure (deploy_mysql.py lines 112-121) -/

/-- Result of the `kubectl get all` subprocess call. -/
inductive ExecResult
  | ok (stdout : List Char)
  | err
deriving DecidableEq

/-- deploy_mysql.py lines 112-121 (`get_namespace_resources`): the stdout
on success, and the empty string when `subprocess.CalledProcessError` is
caught — the exception is swallowed with no logging. -/
def get_namespace_resources : ExecResult → List Char
  | ExecResult.ok s => s
  | ExecResult.err => []

/-- Counterexample to C7: a listing failure returns the very value that an
empty namespace returns, and is therefore classified "empty"; inspector
failure is not distinguishable from an empty namespace. -/
theorem C7_counterexample :
    get_namespace_resources ExecResult.err = get_namespace_resources (ExecResult.ok []) ∧
    check_existing_resources (get_namespace_resources ExecResult.err) = "empty" := by
  constructor
  · rfl
  · rfl

/-- Amended C7: the snapshot operation returns the listing's stdout on
success — the empty string for an empty namespace — and ALSO the empty
string when the listing command fails; failure is silently mapped to the
same value as an empty namespace and classified Empty. -/
theorem C7_amended_error_collapses_to_empty :
    (∀ s : List Char, get_namespace_resources (ExecResult.ok s) = s) ∧
    (∀ r : ExecResult, get_namespace_resources r = [] ↔
      r = ExecResult.err ∨ r = ExecResult.ok []) ∧
    check_existing_resources (get_namespace_resources ExecResult.err) =
      check_existing_resources (get_namespace_resources (ExecResult.ok [])) := by
  refine ⟨fun s => rfl, ?_, rfl⟩
  intro r
  cases r with
  | ok s => simp [get_namespace_resources]
  | err => simp [get_namespace_resources]

/-! ### ensure_namespace and the already-exists race (C8) -/

/-- Counterexample to C8: in the already-exists race the existence check
reports the namespace absent (`false`) and the create command then errors
because the namespace has meanwhile appeared (`false`); deploy_mysql.py
`manage_namespace` catches the `CalledProcessError` and exits with an
error (result `false`), instead of treating the race as success. -/
theorem C8_counterexample :
    manage_namespace false false = ([Cmd.getNamespace, Cmd.createNamespace], false) := rfl

/-- Amended C8: `manage_namespace` checks existence, creates only when the
check reports the namespace absent, and succeeds when it already exists
at check time; but EVERY create-command error — an already-exists race
included — makes it exit with an error, so races are failures, not
successes. -/
theorem C8_amended_create_error_always_fails :
    ∀ nsExists createOk : Bool,
      (nsExists = true → manage_namespace nsExists createOk = ([Cmd.getNamespace], true)) ∧
      (nsExists = false → createOk = true →
        manage_namespace nsExists createOk = ([Cmd.getNamespace, Cmd.createNamespace], true)) ∧
      (nsExists = false → createOk = false →
        manage_namespace nsExists createOk = ([Cmd.getNamespace, Cmd.createNamespace], false)) := by
  decide

/-! ### Conflict-answer normalisation (C9) -/

/-- Counterexample to C9: at deploy_mysql.py's conflict prompt the answer
is lower-cased but NOT whitespace-trimmed, so "  yes" and "yes" — which
differ only in surrounding whitespace — map to different decisions (the
first deploys without recreating, the second recreates). -/
theorem C9_counterexample :
    pyStrip (String.toList "  yes") = String.toList "yes" ∧
    mysqlRecreateChosen (String.toList "yes") = true ∧
    mysqlRecreateChosen (String.toList "  yes") = false := by
  refine ⟨by decide, by decide, by decide⟩

/-- Amended C9: deploy_ecom_app.py interprets the conflict answer
case-insensitively after trimming (two answers with the same stripped,
lower-cased form always give the same decision and command trace), while
deploy_mysql.py is case-insensitive only — it never strips, as the
counterexample shows. -/
theorem C9_amended_normalisation_per_script :
    (∀ s t : List Char, toLowerStr (pyStrip s) = toLowerStr (pyStrip t) →
      ∀ (out : List Char) (dOk a b : Bool),
        manage_existing_resources out s dOk a b = manage_existing_resources out t dOk a b) ∧
    (∀ s t : List Char, toLowerStr s = toLowerStr t →
      mysqlRecreateChosen s = mysqlRecreateChosen t) := by
  constructor
  · intro s t h out dOk a b
    unfold manage_existing_resources
    rw [h]
  · intro s t h
    unfold mysqlRecreateChosen
    rw [h]

end Scripts
